import Mathlib

/-!
Verification of gcli-nexus (a multi-upstream LLM reverse proxy) against its
specification.  The Rust sources are shallowly embedded as executable Lean
definitions:

* `pollux-thoughtsig-core/src/fingerprint.rs` — `CacheKeyGenerator`
  (`generate_text`, `generate_json`), with serde_json's `sort_all_objects`
  canonicalization embedded over a `Json` value type.  `AHasher` is embedded
  as a fixed deterministic 64-bit hash over the hashed character sequence
  (`ahash64`): every property proved here depends only on the hash being a
  deterministic function of its input, never on particular hash values.
* `pollux-thoughtsig-core/src/engine.rs` — `fill_one` and `EnginePolicy`.
* `pollux-thoughtsig-core/src/store.rs` — the signature store, embedded as an
  association list with newest-wins lookup (matching `Cache::insert`
  overwrite semantics; TTL/capacity eviction is out of scope of the claims).
* `src/providers/geminicli/thoughtsig/service.rs` — `patch_request`,
  `record_response`.
* `src/server/routes/geminicli/respond.rs` — `transform_stream`.
* `src/server/routes/antigravity/extract.rs` — `ensure_claude_system_instruction`
  and the Claude model gate of `from_request`.
* `src/providers/antigravity/client/client.rs` and
  `pollux-schema/src/antigravity/antigravity_request.rs` — envelope synthesis
  (`request_id_from_parts`, `session_id_from_int`, fixed body fields).
* The credential-pool actor and a few helpers are not present in the source
  snapshot; they are modelled from the specification and marked as such in
  their doc comments.
-/

/-! ## JSON values (serde_json::Value) -/

/-- serde_json `Value`.  Numbers are restricted to integers: every number the
fingerprinted payloads carry is treated opaquely, and no claim depends on
float formatting. -/
inductive Json where
  | null : Json
  | bool (b : Bool) : Json
  | num (n : Int) : Json
  | str (s : String) : Json
  | arr (xs : List Json) : Json
  | obj (entries : List (String × Json)) : Json

/-- Lexicographic order on character lists by code point, embedding Rust's
`Ord` for `String` (byte-lexicographic; UTF-8 byte order agrees with code
point order). -/
def charListLe : List Char → List Char → Bool
  | [], _ => true
  | _ :: _, [] => false
  | a :: as, b :: bs =>
    if a.toNat < b.toNat then true
    else if b.toNat < a.toNat then false
    else charListLe as bs

/-- Strict version of `charListLe`. -/
def charListLt : List Char → List Char → Bool
  | [], [] => false
  | [], _ :: _ => true
  | _ :: _, [] => false
  | a :: as, b :: bs =>
    if a.toNat < b.toNat then true
    else if b.toNat < a.toNat then false
    else charListLt as bs

/-- Key order used by `sort_all_objects`: compare entry keys. -/
def keyLe (a b : String × Json) : Bool := charListLe a.1.data b.1.data

/-- Ordered insertion of one object entry (helper of the key sort). -/
def insertEntry (e : String × Json) : List (String × Json) → List (String × Json)
  | [] => [e]
  | f :: fs => if keyLe e f then e :: f :: fs else f :: insertEntry e fs

/-- Sort object entries by key (serde_json sorts a map's keys; with unique
keys any comparison sort produces this same list). -/
def sortEntriesByKey : List (String × Json) → List (String × Json)
  | [] => []
  | e :: es => insertEntry e (sortEntriesByKey es)

mutual
/-- serde_json `Value::sort_all_objects`: recursively sort every object's
entries by key; arrays keep their element order. -/
def sortAllObjects : Json → Json
  | .null => .null
  | .bool b => .bool b
  | .num n => .num n
  | .str s => .str s
  | .arr xs => .arr (sortJsonList xs)
  | .obj es => .obj (sortEntriesByKey (sortJsonEntries es))

/-- `sort_all_objects` mapped over an array's elements. -/
def sortJsonList : List Json → List Json
  | [] => []
  | x :: xs => sortAllObjects x :: sortJsonList xs

/-- `sort_all_objects` mapped over an object's values. -/
def sortJsonEntries : List (String × Json) → List (String × Json)
  | [] => []
  | (k, v) :: es => (k, sortAllObjects v) :: sortJsonEntries es
end

mutual
/-- Compact serde_json serialization (`Value::to_string`).  String escaping
is not modelled character by character; no claim depends on escape sequences,
only on the serializer being a fixed function of the value. -/
def jsonToString : Json → String
  | .null => "null"
  | .bool true => "true"
  | .bool false => "false"
  | .num n => toString n
  | .str s => "\x22" ++ s ++ "\x22"
  | .arr xs => "[" ++ String.intercalate "," (jsonListStrings xs) ++ "]"
  | .obj es => "\x7b" ++ String.intercalate "," (jsonEntryStrings es) ++ "\x7d"

/-- Serialized forms of an array's elements. -/
def jsonListStrings : List Json → List String
  | [] => []
  | x :: xs => jsonToString x :: jsonListStrings xs

/-- Serialized forms of an object's entries. -/
def jsonEntryStrings : List (String × Json) → List String
  | [] => []
  | (k, v) :: es => ("\x22" ++ k ++ "\x22:" ++ jsonToString v) :: jsonEntryStrings es
end

/-! ## Fingerprints (pollux-thoughtsig-core/src/fingerprint.rs) -/

/-- `AHasher` stand-in: a deterministic 64-bit hash folded over the hashed
character sequence (the Rust code hashes the UTF-8 bytes; UTF-8 encoding is
injective, so hashing code points preserves exactly the same equalities). -/
def ahash64 (l : List Nat) : Nat :=
  l.foldl (fun h b => (h * 1099511628211 + b) % (2 ^ 64)) 14695981039346656037

/-- Unicode `White_Space` test, embedding Rust's `char::is_whitespace`
(the code points of the Unicode White_Space property). -/
def rustIsWhitespace (c : Char) : Bool :=
  let n := c.toNat
  (9 ≤ n && n ≤ 13) || n == 32 || n == 133 || n == 160 || n == 5760 ||
  (8192 ≤ n && n ≤ 8202) || n == 8232 || n == 8233 || n == 8239 || n == 8287 ||
  n == 12288

/-- Rust `str::trim` on a character list: drop leading and trailing Unicode
whitespace. -/
def rustTrimChars (l : List Char) : List Char :=
  ((l.dropWhile rustIsWhitespace).reverse.dropWhile rustIsWhitespace).reverse

/-- ASCII whitespace, as the specification's words describe the trimming
("trim leading/trailing ASCII whitespace").  Kept distinct from
`rustIsWhitespace` so the spec's wording can be compared with the code. -/
def asciiIsWhitespace (c : Char) : Bool :=
  let n := c.toNat
  (9 ≤ n && n ≤ 13) || n == 32

/-- Trimming exactly ASCII whitespace — the operation the specification's
sentence describes (spec-side definition, for comparison with
`generate_text`). -/
def asciiTrimChars (l : List Char) : List Char :=
  ((l.dropWhile asciiIsWhitespace).reverse.dropWhile asciiIsWhitespace).reverse

/-- `CacheKeyGenerator::generate_text`: trim the text (Rust `str::trim`),
return no fingerprint when the trimmed text is empty, otherwise the 64-bit
hash of the trimmed sequence. -/
def generate_text (text : String) : Option Nat :=
  let trimmed := rustTrimChars text.data
  if trimmed.isEmpty then none
  else some (ahash64 (trimmed.map Char.toNat))

/-- `CacheKeyGenerator::generate_json`: canonicalize with
`sort_all_objects`, serialize, hash.  (`serde_json::to_value` on an
already-structured value cannot fail, so the result is always `some`.) -/
def generate_json (value : Json) : Option Nat :=
  some (ahash64 ((jsonToString (sortAllObjects value)).data.map Char.toNat))

/-! ## Signature store (pollux-thoughtsig-core/src/store.rs) -/

/-- The signature store: fingerprint → signature.  `Cache::insert`
overwrites an existing key (newest wins), embedded by prepending and taking
the first hit on lookup.  TTL/capacity eviction is outside the claims. -/
abbrev SigStore : Type := List (Nat × String)

/-- `MokaSignatureStore::put`. -/
def storePut (key : Nat) (signature : String) (store : SigStore) : SigStore :=
  (key, signature) :: store

/-- `MokaSignatureStore::get`. -/
def storeGet (store : SigStore) (key : Nat) : Option String :=
  match store with
  | [] => none
  | (k, s) :: rest => if k == key then some s else storeGet rest key

/-! ## Engine (pollux-thoughtsig-core/src/engine.rs, policy.rs, types.rs) -/

/-- `EnginePolicy`. -/
structure EnginePolicy where
  trust_existing : Bool
  fill_missing : Bool
  dummy_signature : String

/-- `EnginePolicy::default()`. -/
def EnginePolicy.default : EnginePolicy :=
  { trust_existing := true
    fill_missing := true
    dummy_signature := "skip_thought_signature_validator" }

/-- `FillAction`. -/
inductive FillAction where
  | Keep : FillAction
  | UseCached (signature : String) : FillAction
  | UseDummy : FillAction
deriving DecidableEq

/-- `FillDecision`. -/
structure FillDecision where
  action : FillAction
  key : Option Nat

/-- `ThoughtSignatureEngine::make_key`: a string input is fingerprinted as
text, any other value as canonicalized JSON. -/
def make_key (key_input : Option Json) : Option Nat :=
  match key_input with
  | some (.str text) => generate_text text
  | some value => generate_json value
  | none => none

/-- `ThoughtSignatureEngine::fill_one`. -/
def fill_one (store : SigStore) (policy : EnginePolicy) (key_input : Option Json)
    (existing_signature : Option String) (required : Bool) : FillDecision :=
  let key := make_key key_input
  if existing_signature.isSome && policy.trust_existing then
    { action := .Keep, key := key }
  else if !required || !policy.fill_missing then
    { action := .Keep, key := key }
  else
    match key with
    | some cache_key =>
        match storeGet store cache_key with
        | some sig => { action := .UseCached sig, key := key }
        | none => { action := .UseDummy, key := key }
    | none => { action := .UseDummy, key := key }

/-! ## Gemini request/response schema (pollux-schema, as used by the
thought-signature service and the antigravity routes) -/

/-- A Gemini content part (the fields the embedded code reads or writes). -/
structure GeminiPart where
  text : Option String
  thought : Option Bool
  functionCall : Option Json
  thoughtSignature : Option String

/-- A part carrying only a `text` field (all other fields absent). -/
def textPart (t : String) : GeminiPart :=
  { text := some t, thought := none, functionCall := none, thoughtSignature := none }

/-- A content: a role and its parts. -/
structure Content where
  role : Option String
  parts : List GeminiPart

/-- A `systemInstruction` object: a list of parts. -/
structure SystemInstruction where
  parts : List GeminiPart

/-- `GeminiGenerateContentRequest` (the fields the embedded code touches:
`contents`, `systemInstruction`, and the `sessionId` extra field the
antigravity client may insert). -/
structure GeminiGenerateContentRequest where
  contents : List Content
  systemInstruction : Option SystemInstruction
  sessionId : Option String

/-- A response candidate (its content). -/
structure Candidate where
  content : Content

/-- `GeminiResponseBody`: the candidates. -/
structure GeminiResponseBody where
  candidates : List Candidate

/-! ## Thought-signature service
(src/providers/geminicli/thoughtsig/service.rs with its request adapter;
`collect_request_patch_targets` / `apply_request_fill_decisions` and the
response sniffer are not in the source snapshot and are modelled from the
specification, §4.3) -/

/-- Modelled from the spec: the fingerprint input of one patch site
(`collect_request_patch_targets` is missing from the snapshot).  A part of a
`role == "model"` content is a patch site iff it carries a `functionCall`
(input: the call's structured value) or `thought == true` (input: the `text`
field, which may be absent); `none` means the part is not subject to
patching. -/
def partTarget (p : GeminiPart) : Option (Option Json) :=
  if p.functionCall.isSome then some p.functionCall
  else if p.thought == some true then some (p.text.map Json.str)
  else none

/-- Modelled from the spec: apply one `FillDecision` to a part
(`apply_request_fill_decisions` is missing from the snapshot): `Keep` leaves
the part alone, `UseCached`/`UseDummy` write the signature. -/
def applyDecision (p : GeminiPart) (d : FillDecision) (dummy : String) : GeminiPart :=
  match d.action with
  | .Keep => p
  | .UseCached s => { p with thoughtSignature := some s }
  | .UseDummy => { p with thoughtSignature := some dummy }

/-- Patch one part: targets run through `fill_one` (with `required = true`,
as the service passes), other parts are untouched. -/
def patchPart (store : SigStore) (p : GeminiPart) : GeminiPart :=
  match partTarget p with
  | none => p
  | some key_input =>
      applyDecision p
        (fill_one store EnginePolicy.default key_input p.thoughtSignature true)
        EnginePolicy.default.dummy_signature

/-- Patch one content: only `role == "model"` contents are walked. -/
def patchContent (store : SigStore) (c : Content) : Content :=
  if c.role == some "model" then { c with parts := c.parts.map (patchPart store) }
  else c

/-- `GeminiThoughtSigService::patch_request` (the request mutation it
performs; statistics are ignored). -/
def patch_request (store : SigStore) (req : GeminiGenerateContentRequest) :
    GeminiGenerateContentRequest :=
  { req with contents := req.contents.map (patchContent store) }

/-- Modelled from the spec: the `(fingerprint, signature)` pair one response
part contributes (the response sniffer is missing from the snapshot).  Per
§4.3, a part is recorded iff it has a usable fingerprint input — same rules
as for requests — and a non-empty `thoughtSignature`. -/
def partRecordEntry (p : GeminiPart) : Option (Nat × String) :=
  match partTarget p with
  | none => none
  | some key_input =>
      match make_key key_input, p.thoughtSignature with
      | some key, some sig => if sig == "" then none else some (key, sig)
      | _, _ => none

/-- All pairs a response contributes, in candidate/part order. -/
def responseRecordEntries (r : GeminiResponseBody) : List (Nat × String) :=
  (r.candidates.map (fun c => c.content.parts.filterMap partRecordEntry)).flatten

/-- `GeminiThoughtSigService::record_response`: write every recorded pair to
the store, in order (a later pair with the same fingerprint overwrites). -/
def record_response (store : SigStore) (r : GeminiResponseBody) : SigStore :=
  (responseRecordEntries r).foldl (fun st e => storePut e.1 e.2 st) store

/-! ## Streaming response pipeline (src/server/routes/geminicli/respond.rs) -/

/-- One upstream SSE event (eventsource_stream::Event): the event name and
its data. -/
structure SseEvent where
  event : String
  data : String

/-- `transform_stream`, as the per-event output decision of the
`try_filter_map` body: empty data is dropped, `[DONE]`/`done` events are
dropped, unparseable data is dropped, anything else is recorded and
forwarded.  The JSON parser is a parameter (serde parsing is not embedded);
the forwarded items are the parsed chunks. -/
def transform_stream (parse : String → Option GeminiResponseBody)
    (events : List SseEvent) : List GeminiResponseBody :=
  events.filterMap (fun e =>
    if e.data == "" then none
    else if e.data == "[DONE]" || e.event == "done" then none
    else parse e.data)

/-! ## Antigravity route and client
(src/server/routes/antigravity/extract.rs,
src/providers/antigravity/client/client.rs,
pollux-schema/src/antigravity/antigravity_request.rs) -/

/-- `startsWithList needle hay`: `hay` begins with `needle` (Rust
`str::starts_with`). -/
def startsWithList : List Char → List Char → Bool
  | [], _ => true
  | _ :: _, [] => false
  | a :: as, b :: bs => a == b && startsWithList as bs

/-- `containsSub needle hay`: `needle` occurs contiguously in `hay` (Rust
`str::contains`). -/
def containsSub (needle : List Char) : List Char → Bool
  | [] => needle.isEmpty
  | c :: rest => startsWithList needle (c :: rest) || containsSub needle rest

/-- Rust `char::to_ascii_lowercase`. -/
def asciiLower (c : Char) : Char :=
  if 65 ≤ c.toNat && c.toNat ≤ 90 then Char.ofNat (c.toNat + 32) else c

/-- Modelled from the spec: the fixed Claude system-instruction preamble
(`crate::config::CLAUDE_SYSTEM_PREAMBLE`, whose definition is not in the
snapshot).  The embedded code relies only on it containing the idempotence
marker `**Proactiveness**`. -/
def CLAUDE_SYSTEM_PREAMBLE : String :=
  "# **Proactiveness** You are an agent operating inside Antigravity."

/-- The marker test of `ensure_claude_system_instruction`:
`text.to_ascii_lowercase().contains("**proactiveness**")`. -/
def markerHit (text : String) : Bool :=
  containsSub "**proactiveness**".data (text.data.map asciiLower)

/-- `ensure_claude_system_instruction` (extract.rs): read
`systemInstruction.parts[0].text`; if it contains the marker
(case-insensitively), leave the body untouched; otherwise replace the whole
`systemInstruction` by a single part whose text is the preamble — followed by
a newline and the existing first part's text when that text exists and is
non-empty. -/
def ensure_claude_system_instruction (body : GeminiGenerateContentRequest) :
    GeminiGenerateContentRequest :=
  let existing_text :=
    body.systemInstruction.bind (fun si => si.parts.head?.bind (fun p => p.text))
  match existing_text with
  | some t =>
      if markerHit t then body
      else
        { body with
          systemInstruction := some { parts := [textPart
            (if t == "" then CLAUDE_SYSTEM_PREAMBLE
             else CLAUDE_SYSTEM_PREAMBLE ++ "\n" ++ t)] } }
  | none =>
      { body with
        systemInstruction := some { parts := [textPart CLAUDE_SYSTEM_PREAMBLE] } }

/-- The Claude-family gate of `from_request` (extract.rs):
`model.starts_with("claude")`. -/
def claudeFamily (model : String) : Bool :=
  startsWithList "claude".data model.data

/-- The route-level body preprocessing of `from_request`: inject the Claude
preamble for Claude-family models only. -/
def preprocessAntigravityBody (model : String)
    (body : GeminiGenerateContentRequest) : GeminiGenerateContentRequest :=
  if claudeFamily model then ensure_claude_system_instruction body else body

/-- `AntigravityRequestMeta`. -/
structure AntigravityRequestMeta where
  project : String
  request_id : String
  model : String

/-- `AntigravityRequestBody` (all six wire fields). -/
structure AntigravityRequestBody where
  project : String
  requestId : String
  request : GeminiGenerateContentRequest
  model : String
  userAgent : String
  requestType : String

/-- `From<(GeminiGenerateContentRequest, AntigravityRequestMeta)>`: wrap the
request, fixing `userAgent = "antigravity"` and `requestType = "agent"`. -/
def intoRequestBody (meta : AntigravityRequestMeta)
    (request : GeminiGenerateContentRequest) : AntigravityRequestBody :=
  { project := meta.project
    requestId := meta.request_id
    request := request
    model := meta.model
    userAgent := "antigravity"
    requestType := "agent" }

/-- Modelled from the spec: `AntigravityRequestBody::prepend_system_instruction`
(its body is not in the snapshot).  Per §4.5 the preamble is prepended for
Claude-family models, checked idempotently through the
`**proactiveness**` marker; for other models the envelope is untouched. -/
def prepend_system_instruction (env : AntigravityRequestBody) :
    AntigravityRequestBody :=
  if claudeFamily env.model then
    { env with request := ensure_claude_system_instruction env.request }
  else env

/-- The `sessionId` insertion of `call_antigravity`:
`extra.entry("sessionId").or_insert(generate_session_id())`. -/
def ensureSessionId (env : AntigravityRequestBody) (sid : String) :
    AntigravityRequestBody :=
  match env.request.sessionId with
  | some _ => env
  | none => { env with request := { env.request with sessionId := some sid } }

/-- The full envelope synthesis of `call_antigravity` for one leased
credential: route preprocessing, wrapping, preamble idempotence pass,
`sessionId` insertion. -/
def antigravityEnvelope (model project request_id sid : String)
    (clientBody : GeminiGenerateContentRequest) : AntigravityRequestBody :=
  let body := preprocessAntigravityBody model clientBody
  let env := intoRequestBody { project := project, request_id := request_id, model := model } body
  ensureSessionId (prepend_system_instruction env) sid

/-! ## Request-id / session-id synthesis
(src/providers/antigravity/client/client.rs) -/

/-- Decimal digit character. -/
def digitChar (n : Nat) : Char := Char.ofNat (48 + n)

/-- Decimal rendering of a natural number (Rust `format!` of an integer;
timestamps are non-negative). -/
def natDecChars (n : Nat) : List Char :=
  if h : n < 10 then [digitChar n]
  else natDecChars (n / 10) ++ [digitChar (n % 10)]
decreasing_by exact Nat.div_lt_self (by omega) (by omega)

/-- Decimal value of a digit list (most significant first). -/
def decValue (l : List Char) : Nat :=
  l.foldl (fun a c => a * 10 + (c.toNat - 48)) 0

/-- Lowercase hexadecimal digit character. -/
def hexChar (n : Nat) : Char :=
  if n < 10 then Char.ofNat (48 + n) else Char.ofNat (87 + n)

/-- `len` lowercase hex digits of `n` (most significant first, modulo
`16 ^ len`). -/
def hexDigits : Nat → Nat → List Char
  | 0, _ => []
  | l + 1, n => hexDigits l (n / 16) ++ [hexChar (n % 16)]

/-- `Uuid::new_v4` rendered by `Display` (the `8-4-4-4-12` lowercase form):
122 random bits with the version nibble forced to `4` and the variant nibble
forced into `8..b`.  The randomness is modelled by the seed `n`. -/
def uuidV4Chars (n : Nat) : List Char :=
  hexDigits 8 (n / 16 ^ 24) ++ '-' ::
  (hexDigits 4 (n / 16 ^ 20) ++ '-' ::
  ('4' :: hexDigits 3 (n / 16 ^ 17) ++ '-' ::
  (hexChar (8 + (n / 16 ^ 16) % 4) :: hexDigits 3 (n / 16 ^ 13) ++ '-' ::
  hexDigits 12 n)))

/-- `AntigravityClient::request_id_from_parts`:
`format!("agent/{timestamp_ms}/{request_uuid}")`. -/
def request_id_from_parts (timestamp_ms : Nat) (request_uuid : String) : String :=
  "agent/" ++ String.mk (natDecChars timestamp_ms) ++ "/" ++ request_uuid

/-- `AntigravityClient::generate_request_id`, with the clock and the RNG
modelled by the arguments. -/
def generate_request_id (timestamp_ms : Nat) (seed : Nat) : String :=
  request_id_from_parts timestamp_ms (String.mk (uuidV4Chars seed))

/-- `AntigravityClient::session_id_from_int`: `format!("-{value}")`. -/
def session_id_from_int (value : Nat) : String :=
  "-" ++ String.mk (natDecChars value)

/-- `AntigravityClient::generate_session_id`, with the RNG draw
(`random_range(0..9e18)`) modelled by the argument. -/
def generate_session_id (value : Nat) : String :=
  session_id_from_int value

/-- Lowercase hexadecimal digit test. -/
def isHexLower (c : Char) : Bool :=
  (48 ≤ c.toNat && c.toNat ≤ 57) || (97 ≤ c.toNat && c.toNat ≤ 102)

/-- Decimal digit test. -/
def isDecDigit (c : Char) : Bool :=
  48 ≤ c.toNat && c.toNat ≤ 57

/-- Split a character list at `'-'` separators. -/
def splitDash : List Char → List (List Char)
  | [] => [[]]
  | c :: rest =>
      if c == '-' then [] :: splitDash rest
      else
        match splitDash rest with
        | [] => [[c]]
        | g :: gs => (c :: g) :: gs

/-- The claim's literal shape of a v4 UUID string: five dash-separated
groups of lowercase hex of lengths 8/4/4/4/12, version nibble `4`, variant
nibble in `8..b`. -/
def checkUuidV4 (l : List Char) : Bool :=
  match splitDash l with
  | [g1, g2, g3, g4, g5] =>
      g1.length == 8 && g2.length == 4 && g3.length == 4 && g4.length == 4 &&
      g5.length == 12 &&
      (g1 ++ g2 ++ g3 ++ g4 ++ g5).all isHexLower &&
      g3.head? == some '4' &&
      (match g4.head? with
       | some c => c == '8' || c == '9' || c == 'a' || c == 'b'
       | none => false)
  | _ => false

/-- The claim's literal shape `agent/{decimal}/{uuid_v4}` of a request id. -/
def checkRequestId (l : List Char) : Bool :=
  match l with
  | 'a' :: 'g' :: 'e' :: 'n' :: 't' :: '/' :: rest =>
      let digits := rest.takeWhile isDecDigit
      let tail := rest.dropWhile isDecDigit
      !digits.isEmpty &&
      (match tail with
       | '/' :: uuid => checkUuidV4 uuid
       | _ => false)
  | _ => false

/-- The claim's literal shape of a session id: `'-'` followed by a decimal
numeral whose value is below `9 * 10 ^ 18`. -/
def checkSessionId (l : List Char) : Bool :=
  match l with
  | '-' :: ds => !ds.isEmpty && ds.all isDecDigit && decValue ds < 9 * 10 ^ 18
  | _ => false

/-! ## Credential pool (modelled from the spec)

The credential-pool actor is not part of the source snapshot (only its
callers in `client.rs` are).  The following definitions are modelled from
the specification: §3 Credential Health, its eligibility invariant, and the
§4.4 lease algorithm / health reports. -/

/-- Modelled from the spec: in-memory health state of one pooled credential
(§3: `banned`, `invalid`, `rate_limited : mapping<model_mask, deadline>`,
`unsupported_models`, `in_flight`, plus the persisted `status`). -/
structure CredState where
  id : Nat
  status : Bool
  banned : Bool
  invalid : Bool
  rateLimited : List (Nat × Nat)
  unsupported : List Nat
  inFlight : Nat

/-- The rate-limit deadline recorded for one model mask. -/
def rlDeadline (c : CredState) (mask : Nat) : Option Nat :=
  match c.rateLimited.find? (fun e => e.1 == mask) with
  | some e => some e.2
  | none => none

/-- Modelled from the spec (§3): a credential is eligible for model `M` iff
`status ∧ ¬banned ∧ ¬invalid ∧ M ∉ unsupported ∧ (now ≥ rate_limited[M] or
unset)`. -/
def eligible (c : CredState) (mask now : Nat) : Bool :=
  c.status && !c.banned && !c.invalid && !(c.unsupported.contains mask) &&
  (match rlDeadline c mask with
   | some d => d ≤ now
   | none => true)

/-- Lease tie-break (§4.4): lowest `in_flight`, then lowest `id`. -/
def betterLease (a b : CredState) : Bool :=
  a.inFlight < b.inFlight || (a.inFlight == b.inFlight && a.id < b.id)

/-- Choose the best credential of a list under `betterLease`. -/
def selectBest : List CredState → Option CredState
  | [] => none
  | c :: cs =>
      match selectBest cs with
      | none => some c
      | some d => if betterLease d c then some d else some c

/-- Modelled from the spec (§4.4): `get_credential(model_mask)` filters the
pool by eligibility and picks the best lease. -/
def get_credential (pool : List CredState) (mask now : Nat) : Option CredState :=
  selectBest (pool.filter (fun c => eligible c mask now))

/-- Coalesce one rate-limit entry: overwrite the mask's entry with the later
deadline, or add the entry when none exists. -/
def coalesceRL (mask deadline : Nat) : List (Nat × Nat) → List (Nat × Nat)
  | [] => [(mask, deadline)]
  | e :: t =>
      if e.1 == mask then (e.1, max e.2 deadline) :: t
      else e :: coalesceRL mask deadline t

/-- Modelled from the spec (§4.4): `report_rate_limit` sets
`rate_limited[mask] = now + d`, coalescing with an existing entry by taking
the later deadline. -/
def report_rate_limit (c : CredState) (mask deadline : Nat) : CredState :=
  { c with rateLimited := coalesceRL mask deadline c.rateLimited }

/-! ## Concrete fixtures used by witnesses and counterexamples -/

instance : Inhabited GeminiPart := ⟨textPart ""⟩

instance : Inhabited Content := ⟨{ role := none, parts := [] }⟩

/-- A model-role thought part that already carries a signature. -/
def signedThoughtPart : GeminiPart :=
  { text := some "internal reasoning", thought := some true,
    functionCall := none, thoughtSignature := some "real_signature_123" }

/-- A model-role thought part with no signature. -/
def unsignedThoughtPart (t : String) : GeminiPart :=
  { text := some t, thought := some true, functionCall := none,
    thoughtSignature := none }

/-- A thought part with no `text` at all (fingerprint input absent). -/
def noTextThoughtPart : GeminiPart :=
  { text := none, thought := some true, functionCall := none,
    thoughtSignature := none }

/-- Request whose only model turn is fully signed (C1 witness). -/
def reqAllSigned : GeminiGenerateContentRequest :=
  { contents :=
      [ { role := some "user", parts := [textPart "hi"] },
        { role := some "model", parts := [signedThoughtPart] } ]
    systemInstruction := none
    sessionId := none }

/-- Request with one unsigned model thought part carrying text `t`. -/
def reqModelThought (t : String) : GeminiGenerateContentRequest :=
  { contents := [ { role := some "model", parts := [unsignedThoughtPart t] } ]
    systemInstruction := none
    sessionId := none }

/-- Request whose model thought part has no text (C9 witness). -/
def reqNoTextThought : GeminiGenerateContentRequest :=
  { contents := [ { role := some "model", parts := [noTextThoughtPart] } ]
    systemInstruction := none
    sessionId := none }

/-- A response part with fingerprint input `t` and signature `sig`. -/
def respThoughtPart (t sig : String) : GeminiPart :=
  { text := some t, thought := some true, functionCall := none,
    thoughtSignature := some sig }

/-- A `role == "model"` content over the given parts. -/
def modelContent (ps : List GeminiPart) : Content :=
  { role := some "model", parts := ps }

/-- Response with a single signed thought part (C2). -/
def respOnePart (t sig : String) : GeminiResponseBody :=
  { candidates := [ { content := modelContent [respThoughtPart t sig] } ] }

/-- Response carrying the same fingerprint input twice with two different
signatures (C2 counterexample). -/
def respDupKeyParts : List GeminiPart :=
  [respThoughtPart "k" "sig_one", respThoughtPart "k" "sig_two"]

def respDupKey : GeminiResponseBody :=
  { candidates := [ { content := modelContent respDupKeyParts } ] }

/-- The trivially empty response body (used as a parsed stream chunk). -/
def emptyBody : GeminiResponseBody := { candidates := [] }

/-- A parser recognizing only the payload `"x"` (C4 fixtures). -/
def parseOnlyX (s : String) : Option GeminiResponseBody :=
  if s == "x" then some emptyBody else none

/-- An upstream `[DONE]` event. -/
def doneEvent : SseEvent := { event := "", data := "[DONE]" }

/-- An ordinary upstream data event with payload `"x"`. -/
def chunkEvent : SseEvent := { event := "", data := "x" }

/-- A body whose `systemInstruction` has an empty-text first part followed by
a second part (C10 counterexample). -/
def bodyEmptyFirstPart : GeminiGenerateContentRequest :=
  { contents := []
    systemInstruction := some { parts := [textPart "", textPart "second"] }
    sessionId := none }

/-- A body with a marker-free, non-empty system instruction (C10 witness). -/
def bodyPlainInstruction : GeminiGenerateContentRequest :=
  { contents := [ { role := some "user", parts := [textPart "hi"] } ]
    systemInstruction := some { parts := [textPart "be kind", textPart "extra"] }
    sessionId := none }

/-- A pool credential rate-limited for mask 1 until time 100 (C3 witness). -/
def rlCred : CredState :=
  { id := 1, status := true, banned := false, invalid := false,
    rateLimited := [(1, 100)], unsupported := [], inFlight := 0 }

/-- A healthy pool credential (C3 witness). -/
def freeCred : CredState :=
  { id := 2, status := true, banned := false, invalid := false,
    rateLimited := [], unsupported := [], inFlight := 0 }

/-- Two JSON objects that differ only in object key order (C7 witness):
`{"name":"get_weather","args":{"city":"Berlin","unit":"c"}}` and its
key-reordered form. -/
def fnCallA : Json :=
  .obj [("name", .str "get_weather"),
        ("args", .obj [("city", .str "Berlin"), ("unit", .str "c")])]

/-- Key-reordered counterpart of `fnCallA`. -/
def fnCallB : Json :=
  .obj [("args", .obj [("unit", .str "c"), ("city", .str "Berlin")]),
        ("name", .str "get_weather")]

/-- The non-breaking space (U+00A0): Unicode whitespace that is not ASCII
whitespace (C8 counterexample). -/
def nbspString : String := String.mk [Char.ofNat 160]

/-! ## Structural equality of JSON values up to object key order -/

/-- Structural equality up to object key order: equal scalars, arrays equal
pointwise in order, objects with (duplicate-free) equal key sets whose
values agree recursively at every key. -/
inductive StructEq : Json → Json → Prop where
  | null : StructEq .null .null
  | bool (b : Bool) : StructEq (.bool b) (.bool b)
  | num (n : Int) : StructEq (.num n) (.num n)
  | str (s : String) : StructEq (.str s) (.str s)
  | arr (xs ys : List Json) (hlen : xs.length = ys.length)
      (helem : ∀ (i : Nat) (hx : i < xs.length) (hy : i < ys.length),
        StructEq (xs.get ⟨i, hx⟩) (ys.get ⟨i, hy⟩)) :
      StructEq (.arr xs) (.arr ys)
  | obj (xs ys : List (String × Json))
      (hnx : (xs.map Prod.fst).Nodup) (hny : (ys.map Prod.fst).Nodup)
      (hkeys : ∀ k, k ∈ xs.map Prod.fst ↔ k ∈ ys.map Prod.fst)
      (hvals : ∀ k v w, (k, v) ∈ xs → (k, w) ∈ ys → StructEq v w) :
      StructEq (.obj xs) (.obj ys)

/-! # Theorems -/

/-! ## Generic list helpers -/

/-- `dropWhile` is idempotent. -/
theorem dropWhile_idem {α : Type} (p : α → Bool) (l : List α) :
    (l.dropWhile p).dropWhile p = l.dropWhile p := by
  induction l with
  | nil => simp
  | cons a t ih =>
    by_cases h : p a
    · simp [List.dropWhile_cons, h, ih]
    · simp [List.dropWhile_cons, h]

/-- A prefix of a list with no leading `p`-characters has no leading
`p`-characters. -/
theorem dropWhile_eq_self_of_clean_isPre {α : Type} (p : α → Bool) {m t : List α}
    (hm : m.dropWhile p = m) (hpre : t <+: m) : t.dropWhile p = t := by
  cases t with
  | nil => simp
  | cons a t' =>
    obtain ⟨r, hr⟩ := hpre
    have hne : p a = false := by
      by_cases hpa : p a = true
      · exfalso
        have hstep : m.dropWhile p = (t' ++ r).dropWhile p := by
          rw [← hr]
          simp [List.dropWhile_cons, hpa]
        have hlen : (m.dropWhile p).length ≤ (t' ++ r).length := by
          rw [hstep]
          exact (List.dropWhile_suffix p).length_le
        rw [hm, ← hr] at hlen
        simp at hlen
      · simpa using hpa
    simp [List.dropWhile_cons, hne]

/-- Dropping leading `p`-characters after a both-sided trim changes
nothing. -/
theorem trim_front_clean {α : Type} (p : α → Bool) (l : List α) :
    (((l.dropWhile p).reverse.dropWhile p).reverse).dropWhile p
      = ((l.dropWhile p).reverse.dropWhile p).reverse := by
  apply dropWhile_eq_self_of_clean_isPre p (dropWhile_idem p l)
  rw [← List.reverse_suffix, List.reverse_reverse]
  exact List.dropWhile_suffix p

/-- Both-sided trimming is idempotent. -/
theorem trimBoth_idem {α : Type} (p : α → Bool) (l : List α) :
    ((((((l.dropWhile p).reverse.dropWhile p).reverse).dropWhile p).reverse.dropWhile p).reverse)
      = ((l.dropWhile p).reverse.dropWhile p).reverse := by
  rw [trim_front_clean p l, List.reverse_reverse, dropWhile_idem]

/-- Rust `str::trim` is idempotent. -/
theorem rustTrimChars_idem (l : List Char) :
    rustTrimChars (rustTrimChars l) = rustTrimChars l := by
  unfold rustTrimChars
  exact trimBoth_idem rustIsWhitespace l

/-- Mapping a function that fixes every element of a list is the
identity. -/
theorem map_eq_self_of_fix {α : Type} {f : α → α} {l : List α}
    (h : ∀ x ∈ l, f x = x) : l.map f = l := by
  conv_rhs => rw [show l = l.map id from (List.map_id l).symm]
  exact List.map_congr_left h

/-! ## C8 (corrected) -/

/-- C8 counterexample: on the non-breaking space U+00A0 — which is not ASCII
whitespace — `generate_text` nevertheless returns no fingerprint, so
"returns `none` exactly when the ASCII-trimmed result is empty" is false as
stated: the ASCII-trimmed input is non-empty. -/
theorem generate_text_ascii_counterexample :
    generate_text nbspString = none ∧ asciiTrimChars nbspString.data ≠ [] := by
  constructor
  · decide
  · decide

/-- C8 (amended): `generate_text` trims leading and trailing **Unicode**
whitespace (Rust `str::trim`): `generate_text s` equals `generate_text` of
the Unicode-trimmed string, and it returns no fingerprint exactly when the
Unicode-trimmed result is empty; in particular
`generate_text "  X  " = generate_text "X"` and `generate_text "   "` is
`none`. -/
theorem generate_text_trim_behavior (s : String) :
    generate_text s = generate_text (String.mk (rustTrimChars s.data))
    ∧ (generate_text s = none ↔ rustTrimChars s.data = [])
    ∧ generate_text "  X  " = generate_text "X"
    ∧ generate_text "   " = none := by
  refine ⟨?_, ?_, by decide, by decide⟩
  · show generate_text s = generate_text (String.mk (rustTrimChars s.data))
    unfold generate_text
    have hdata : (String.mk (rustTrimChars s.data)).data = rustTrimChars s.data := rfl
    rw [hdata, rustTrimChars_idem]
  · unfold generate_text
    cases h : rustTrimChars s.data with
    | nil => simp
    | cons a t => simp

/-! ## C1 (confirmed): patch_request is a no-op on fully signed requests -/

/-- C1: for every request in which each part of every `role == "model"`
content already carries a `thoughtSignature`, `patch_request` returns the
request unchanged — existing signatures are kept and no field is touched. -/
theorem patch_request_noop_when_all_signed (store : SigStore)
    (req : GeminiGenerateContentRequest)
    (h : ∀ c ∈ req.contents, c.role = some "model" →
      ∀ p ∈ c.parts, p.thoughtSignature.isSome) :
    patch_request store req = req := by
  unfold patch_request
  have hc : req.contents.map (patchContent store) = req.contents := by
    apply map_eq_self_of_fix
    intro c hcmem
    unfold patchContent
    by_cases hrole : c.role == some "model"
    · have hrole' : c.role = some "model" := by simpa using hrole
      have hparts : c.parts.map (patchPart store) = c.parts := by
        apply map_eq_self_of_fix
        intro p hp
        have hsig : p.thoughtSignature.isSome := h c hcmem hrole' p hp
        unfold patchPart
        cases htar : partTarget p with
        | none => rfl
        | some kin =>
          unfold fill_one
          simp [hsig, EnginePolicy.default, applyDecision]
      simp [hrole, hparts]
    · simp [hrole]
  rw [hc]

/-- C1 witness: the fully signed fixture satisfies the hypothesis and is
left unchanged by `patch_request`. -/
theorem patch_request_noop_when_all_signed_witness :
    (∀ c ∈ reqAllSigned.contents, c.role = some "model" →
      ∀ p ∈ c.parts, p.thoughtSignature.isSome)
    ∧ patch_request [] reqAllSigned = reqAllSigned :=
  ⟨by decide, patch_request_noop_when_all_signed [] reqAllSigned (by decide)⟩

/-! ## C9 (confirmed): missing fingerprint input still gets the dummy -/

/-- C9: a required patch site (a `role == "model"` part with `functionCall`
or `thought == true`) whose fingerprint input yields no fingerprint (absent
text, or whitespace-only text) and which has no existing signature is
patched with the dummy signature `"skip_thought_signature_validator"`
rather than left unset. -/
theorem patch_fills_dummy_on_missing_key (store : SigStore)
    (req : GeminiGenerateContentRequest) (i j : Nat) (kin : Option Json)
    (hi : i < req.contents.length)
    (hrole : req.contents[i].role = some "model")
    (hj : j < req.contents[i].parts.length)
    (htar : partTarget req.contents[i].parts[j] = some kin)
    (hkey : make_key kin = none)
    (hsig : req.contents[i].parts[j].thoughtSignature = none) :
    ∃ (hi2 : i < (patch_request store req).contents.length)
      (hj2 : j < (patch_request store req).contents[i].parts.length),
      ((patch_request store req).contents[i].parts[j]).thoughtSignature
        = some "skip_thought_signature_validator" := by
  have hi2 : i < (patch_request store req).contents.length := by
    simpa [patch_request] using hi
  have hcget : (patch_request store req).contents[i]
      = patchContent store req.contents[i] := by
    simp [patch_request]
  have hparts : (patchContent store req.contents[i]).parts
      = req.contents[i].parts.map (patchPart store) := by
    unfold patchContent
    simp [hrole]
  have hj2 : j < (patch_request store req).contents[i].parts.length := by
    rw [hcget, hparts]
    simpa using hj
  refine ⟨hi2, hj2, ?_⟩
  have hpget : (patch_request store req).contents[i].parts[j]
      = patchPart store req.contents[i].parts[j] := by
    simp [hcget, hparts]
  rw [hpget]
  unfold patchPart
  rw [htar]
  unfold fill_one
  simp [hsig, hkey, EnginePolicy.default, applyDecision]

/-- C9 witness: the no-text thought part of the fixture is patched with the
dummy signature. -/
theorem patch_fills_dummy_on_missing_key_witness :
    ∃ (hi2 : 0 < (patch_request [] reqNoTextThought).contents.length)
      (hj2 : 0 < (patch_request [] reqNoTextThought).contents[0].parts.length),
      ((patch_request [] reqNoTextThought).contents[0].parts[0]).thoughtSignature
        = some "skip_thought_signature_validator" :=
  patch_fills_dummy_on_missing_key [] reqNoTextThought 0 0 none
    (by decide) (by decide) (by decide) (by rfl) (by rfl) (by rfl)

/-! ## C4 (corrected): `[DONE]` / `done` events are dropped, not terminal -/

/-- C4 counterexample: `transform_stream` filters a `[DONE]` event out but
does not terminate the stream — the upstream event arriving after `[DONE]`
is still forwarded downstream, contradicting the claim that no later
upstream event of the stream is forwarded. -/
theorem transform_stream_done_counterexample :
    (doneEvent.data == "[DONE]" || doneEvent.event == "done") = true
    ∧ transform_stream parseOnlyX [doneEvent, chunkEvent] = [emptyBody] := by
  constructor
  · decide
  · rfl

/-- C4 (amended): an event whose data is `"[DONE]"` or whose event name is
`"done"` is itself dropped (never forwarded downstream), but it does not
terminate the stream: the downstream output is that of the same upstream
sequence with the done event removed, so later upstream events are still
forwarded. -/
theorem transform_stream_drops_done (parse : String → Option GeminiResponseBody)
    (pre post : List SseEvent) (e : SseEvent)
    (h : (e.data == "[DONE]" || e.event == "done") = true) :
    transform_stream parse (pre ++ e :: post) = transform_stream parse (pre ++ post) := by
  unfold transform_stream
  rw [List.filterMap_append, List.filterMap_append]
  congr 1
  have h' : e.data = "[DONE]" ∨ e.event = "done" := by simpa using h
  by_cases hd : e.data = ""
  · simp [List.filterMap_cons, hd]
  · simp [List.filterMap_cons, hd, h']

/-- C4 amended-claim witness: dropping the `[DONE]` event between two chunk
events leaves the forwarded output of the surrounding events intact. -/
theorem transform_stream_drops_done_witness :
    (doneEvent.data == "[DONE]" || doneEvent.event == "done") = true
    ∧ transform_stream parseOnlyX ([chunkEvent] ++ doneEvent :: [chunkEvent])
      = transform_stream parseOnlyX ([chunkEvent] ++ [chunkEvent]) :=
  ⟨by decide,
   transform_stream_drops_done parseOnlyX [chunkEvent] [chunkEvent] doneEvent (by decide)⟩

/-! ## C10 (corrected): preamble injection into a marker-free body -/

/-- C10 counterexample: with a marker-free `systemInstruction` whose first
part has empty text, the injected single part carries the bare preamble —
not the preamble followed by a newline and the first part's text — so the
claim's description of the injected text fails at this input. -/
theorem ensure_claude_counterexample :
    markerHit "" = false
    ∧ (ensure_claude_system_instruction bodyEmptyFirstPart).systemInstruction
        = some { parts := [textPart CLAUDE_SYSTEM_PREAMBLE] }
    ∧ CLAUDE_SYSTEM_PREAMBLE ≠ CLAUDE_SYSTEM_PREAMBLE ++ "\n" ++ "" := by
  refine ⟨by decide, by rfl, by decide⟩

/-- C10 (amended): when `ensure_claude_system_instruction` hits a body whose
existing `systemInstruction` first part text does not contain the marker, it
replaces the entire `systemInstruction` with a single part whose text is the
preamble followed by a newline and the first part's text when that text is
non-empty — and the bare preamble when it is empty; parts after the first
are discarded, and the rest of the body is untouched. -/
theorem ensure_claude_injection (body : GeminiGenerateContentRequest)
    (si : SystemInstruction) (t : String)
    (hsi : body.systemInstruction = some si)
    (ht : si.parts.head?.bind (fun p => p.text) = some t)
    (hm : markerHit t = false) :
    (ensure_claude_system_instruction body).systemInstruction
      = some { parts := [textPart
          (if t == "" then CLAUDE_SYSTEM_PREAMBLE
           else CLAUDE_SYSTEM_PREAMBLE ++ "\n" ++ t)] }
    ∧ (ensure_claude_system_instruction body).contents = body.contents := by
  unfold ensure_claude_system_instruction
  rw [hsi]
  simp [ht, hm]

/-- C10 amended-claim witness: injecting into the marker-free fixture
produces the preamble, a newline, and the first part's text, and drops the
second part. -/
theorem ensure_claude_injection_witness :
    (ensure_claude_system_instruction bodyPlainInstruction).systemInstruction
      = some { parts := [textPart
          (if "be kind" == "" then CLAUDE_SYSTEM_PREAMBLE
           else CLAUDE_SYSTEM_PREAMBLE ++ "\n" ++ "be kind")] }
    ∧ (ensure_claude_system_instruction bodyPlainInstruction).contents
      = bodyPlainInstruction.contents :=
  ensure_claude_injection bodyPlainInstruction
    { parts := [textPart "be kind", textPart "extra"] } "be kind"
    (by rfl) (by rfl) (by decide)

/-! ## C5 (confirmed): preamble only for Claude-family models -/

/-- C5: the fixed Claude preamble is injected only for Claude-family models
(`model.starts_with("claude")`): for every non-Claude model, the
`systemInstruction` of the request inside the synthesized Antigravity
upstream envelope is exactly the one the downstream client sent. -/
theorem antigravity_systeminstruction_passthrough
    (model project request_id sid : String)
    (clientBody : GeminiGenerateContentRequest)
    (h : claudeFamily model = false) :
    (antigravityEnvelope model project request_id sid clientBody).request.systemInstruction
      = clientBody.systemInstruction := by
  cases hs : clientBody.sessionId <;>
    simp [antigravityEnvelope, preprocessAntigravityBody, prepend_system_instruction,
      intoRequestBody, ensureSessionId, h, hs]

/-- C5 witness: a non-Claude model's `systemInstruction` passes through the
envelope synthesis untouched. -/
theorem antigravity_systeminstruction_passthrough_witness :
    claudeFamily "gemini-2.5-pro" = false
    ∧ (antigravityEnvelope "gemini-2.5-pro" "project-1" "rid" "-42"
        bodyPlainInstruction).request.systemInstruction
      = bodyPlainInstruction.systemInstruction :=
  ⟨by decide,
   antigravity_systeminstruction_passthrough "gemini-2.5-pro" "project-1" "rid" "-42"
     bodyPlainInstruction (by decide)⟩

/-! ## C2 (corrected): record then patch, newest recorded signature wins -/

/-- Folding `storePut` over a pair list prepends the reversed list. -/
theorem foldl_storePut_eq (ps : List (Nat × String)) (st : SigStore) :
    ps.foldl (fun s e => storePut e.1 e.2 s) st = ps.reverse ++ st := by
  induction ps generalizing st with
  | nil => rfl
  | cons e t ih =>
    rw [List.foldl_cons, ih]
    simp [storePut]

/-- `storeGet` over an append: first list wins. -/
theorem storeGet_append (a b : SigStore) (k : Nat) :
    storeGet (a ++ b) k
      = match storeGet a k with
        | some s => some s
        | none => storeGet b k := by
  induction a with
  | nil => rfl
  | cons e t ih =>
    obtain ⟨k1, s1⟩ := e
    by_cases hk : (k1 == k) = true
    · simp [storeGet, hk]
    · have h1 : storeGet (((k1, s1) :: t) ++ b) k = storeGet (t ++ b) k := by
        simp [storeGet, hk]
      have h2 : storeGet ((k1, s1) :: t) k = storeGet t k := by
        simp [storeGet, hk]
      rw [h1, ih, h2]

/-- `storeGet` is the first matching entry. -/
theorem storeGet_eq_find (l : SigStore) (k : Nat) :
    storeGet l k = (l.find? (fun e => e.1 == k)).map Prod.snd := by
  induction l with
  | nil => rfl
  | cons e t ih =>
    by_cases hk : (e.1 == k) = true
    · simp [storeGet, List.find?_cons, hk]
    · unfold storeGet
      rw [if_neg (by simpa using hk), ih, List.find?_cons]
      simp [hk]

/-- After `record_response`, a fingerprint resolves to the signature of the
most recently recorded pair carrying it; when the response recorded no pair
for it, the previous binding survives. -/
theorem storeGet_record_response (store : SigStore) (r : GeminiResponseBody) (fp : Nat) :
    storeGet (record_response store r) fp
      = match ((responseRecordEntries r).reverse.find? (fun e => e.1 == fp)).map Prod.snd with
        | some s => some s
        | none => storeGet store fp := by
  unfold record_response
  rw [foldl_storePut_eq, storeGet_append, storeGet_eq_find]

/-- C2 counterexample: `respDupKey` carries the fingerprint input `"k"` twice,
first with signature `"sig_one"` and then with `"sig_two"`.  The claim,
instantiated at the `"sig_one"` part, demands that a subsequent patch write
`"sig_one"`; the patch actually writes `"sig_two"` (newest recorded wins). -/
theorem record_then_patch_counterexample :
    respThoughtPart "k" "sig_one" ∈ respDupKeyParts
    ∧ partTarget (respThoughtPart "k" "sig_one") = some (some (.str "k"))
    ∧ (respThoughtPart "k" "sig_one").thoughtSignature = some "sig_one"
    ∧ ((patch_request (record_response [] respDupKey) (reqModelThought "k")).contents.head?.bind
        (fun c => c.parts.head?.bind (fun p => p.thoughtSignature))) = some "sig_two"
    ∧ ("sig_two" : String) ≠ "sig_one" := by
  refine ⟨List.mem_cons_self _ _, rfl, rfl, ?_, by decide⟩
  rfl

/-- C2 (amended): after `record_response(R)`, if the most recently recorded
pair of `R` for fingerprint `fp` carries signature `s` (newest wins when the
same fingerprint appears more than once), then `patch_request` on a request
whose `role == "model"` part has a fingerprint input hashing to `fp` and no
existing signature writes `s` into that part. -/
theorem record_then_patch_writes_signature
    (store : SigStore) (r : GeminiResponseBody) (req : GeminiGenerateContentRequest)
    (fp : Nat) (s : String) (i j : Nat) (kin : Option Json)
    (hlast : (responseRecordEntries r).reverse.find? (fun e => e.1 == fp) = some (fp, s))
    (hi : i < req.contents.length)
    (hrole : req.contents[i].role = some "model")
    (hj : j < req.contents[i].parts.length)
    (htar : partTarget req.contents[i].parts[j] = some kin)
    (hkey : make_key kin = some fp)
    (hsig : req.contents[i].parts[j].thoughtSignature = none) :
    ∃ (hi2 : i < (patch_request (record_response store r) req).contents.length)
      (hj2 : j < (patch_request (record_response store r) req).contents[i].parts.length),
      ((patch_request (record_response store r) req).contents[i].parts[j]).thoughtSignature
        = some s := by
  have hstore : storeGet (record_response store r) fp = some s := by
    rw [storeGet_record_response, hlast]
    rfl
  have hi2 : i < (patch_request (record_response store r) req).contents.length := by
    simpa [patch_request] using hi
  have hcget : (patch_request (record_response store r) req).contents[i]
      = patchContent (record_response store r) req.contents[i] := by
    simp [patch_request]
  have hparts : (patchContent (record_response store r) req.contents[i]).parts
      = req.contents[i].parts.map (patchPart (record_response store r)) := by
    unfold patchContent
    simp [hrole]
  have hj2 : j < (patch_request (record_response store r) req).contents[i].parts.length := by
    rw [hcget, hparts]
    simpa using hj
  refine ⟨hi2, hj2, ?_⟩
  have hpget : (patch_request (record_response store r) req).contents[i].parts[j]
      = patchPart (record_response store r) req.contents[i].parts[j] := by
    simp [hcget, hparts]
  rw [hpget]
  unfold patchPart
  rw [htar]
  unfold fill_one
  simp [hsig, hkey, hstore, EnginePolicy.default, applyDecision]

/-- C2 amended-claim witness: recording the single-part fixture and patching
a request with the same thought text writes the recorded signature. -/
theorem record_then_patch_writes_signature_witness :
    ∃ (hi2 : 0 < (patch_request
        (record_response [] (respOnePart "internal reasoning" "real_signature_123"))
        (reqModelThought "internal reasoning")).contents.length)
      (hj2 : 0 < (patch_request
        (record_response [] (respOnePart "internal reasoning" "real_signature_123"))
        (reqModelThought "internal reasoning")).contents[0].parts.length),
      ((patch_request
        (record_response [] (respOnePart "internal reasoning" "real_signature_123"))
        (reqModelThought "internal reasoning")).contents[0].parts[0]).thoughtSignature
        = some "real_signature_123" :=
  record_then_patch_writes_signature [] (respOnePart "internal reasoning" "real_signature_123")
    (reqModelThought "internal reasoning")
    (ahash64 ((rustTrimChars "internal reasoning".data).map Char.toNat))
    "real_signature_123" 0 0 (some (.str "internal reasoning"))
    (by rfl) (by decide) (by rfl) (by decide) (by rfl) (by rfl) (by rfl)

/-! ## C3 (confirmed): rate-limit cooldown gates leasing per model mask -/

/-- `selectBest` returns a member of its list. -/
theorem selectBest_mem {l : List CredState} {c : CredState}
    (h : selectBest l = some c) : c ∈ l := by
  induction l with
  | nil => cases h
  | cons a t ih =>
    unfold selectBest at h
    cases hsb : selectBest t with
    | none =>
        rw [hsb] at h
        simp at h
        subst h
        exact List.mem_cons_self _ _
    | some d =>
        rw [hsb] at h
        by_cases hb : (betterLease d a) = true
        · simp [hb] at h
          subst h
          exact List.mem_cons_of_mem _ (ih hsb)
        · simp [hb] at h
          subst h
          exact List.mem_cons_self _ _

/-- Coalescing the deadline of one mask leaves lookups of other masks
alone. -/
theorem find_coalesce_other (l : List (Nat × Nat)) (mask mask' d : Nat)
    (h : mask' ≠ mask) :
    (coalesceRL mask d l).find? (fun e => e.1 == mask')
      = l.find? (fun e => e.1 == mask') := by
  induction l with
  | nil =>
    have hne : (mask == mask') = false := by
      simp
      omega
    simp [coalesceRL, List.find?_cons, hne]
  | cons e t ih =>
    obtain ⟨k, v⟩ := e
    by_cases hk : (k == mask) = true
    · have hk' : k = mask := by simpa using hk
      have hne : (k == mask') = false := by
        simp [hk']
        omega
      simp [coalesceRL, hk, List.find?_cons, hne]
    · by_cases hk2 : (k == mask') = true
      · simp [coalesceRL, hk, List.find?_cons, hk2]
      · simp [coalesceRL, hk, List.find?_cons, hk2, ih]

/-- `report_rate_limit` for mask `M` does not change the recorded deadline of
any other mask. -/
theorem rlDeadline_report_other (c : CredState) (mask mask' d : Nat)
    (h : mask' ≠ mask) :
    rlDeadline (report_rate_limit c mask d) mask' = rlDeadline c mask' := by
  unfold report_rate_limit rlDeadline
  rw [find_coalesce_other _ _ _ _ h]

/-- C3: a credential whose `rate_limited` entry for mask `M` holds deadline
`t` is never eligible — hence never leased by `get_credential(M)`, which
returns only eligible credentials — while `now < t`; once `now ≥ t` its
eligibility for `M` again equals the remaining health conditions; and a
rate-limit report for `M` leaves its eligibility for every other mask `M'`
unchanged. -/
theorem rate_limit_cooldown (pool : List CredState) (c cred : CredState)
    (mask mask' t now d : Nat)
    (hrl : rlDeadline c mask = some t) :
    (now < t → eligible c mask now = false)
    ∧ (t ≤ now → eligible c mask now =
        (c.status && !c.banned && !c.invalid && !(c.unsupported.contains mask)))
    ∧ (get_credential pool mask now = some cred → eligible cred mask now = true)
    ∧ (mask' ≠ mask → eligible (report_rate_limit c mask d) mask' now = eligible c mask' now) := by
  refine ⟨?_, ?_, ?_, ?_⟩
  · intro hlt
    unfold eligible
    rw [hrl]
    simp
    omega
  · intro hge
    unfold eligible
    rw [hrl]
    simp [hge]
  · intro hget
    have hmem := selectBest_mem hget
    exact (List.mem_filter.mp hmem).2
  · intro hne
    unfold eligible
    rw [rlDeadline_report_other c mask mask' d hne]
    rfl

/-- C3 witness: the fixture credential is rate-limited for mask 1 until time
100; at `now = 150` the cooldown has elapsed, `get_credential` returns only
eligible credentials, and a fresh report for mask 1 leaves mask 2
eligibility unchanged. -/
theorem rate_limit_cooldown_witness :
    rlDeadline rlCred 1 = some 100
    ∧ ((150 < 100 → eligible rlCred 1 150 = false)
      ∧ (100 ≤ 150 → eligible rlCred 1 150 =
          (rlCred.status && !rlCred.banned && !rlCred.invalid &&
            !(rlCred.unsupported.contains 1)))
      ∧ (get_credential [rlCred, freeCred] 1 150 = some freeCred →
          eligible freeCred 1 150 = true)
      ∧ (2 ≠ 1 → eligible (report_rate_limit rlCred 1 700) 2 150 = eligible rlCred 2 150)) :=
  ⟨by decide, rate_limit_cooldown [rlCred, freeCred] rlCred freeCred 1 2 100 150 700 (by decide)⟩

/-! ## C6 (confirmed): envelope literal shapes -/

/-- A decimal digit character is a decimal digit. -/
theorem digitChar_isDec (n : Nat) (h : n < 10) : isDecDigit (digitChar n) = true := by
  interval_cases n <;> decide

/-- `natDecChars` never yields the empty list. -/
theorem natDecChars_ne_nil (n : Nat) : natDecChars n ≠ [] := by
  unfold natDecChars
  split <;> simp

/-- Every character of a decimal rendering is a decimal digit. -/
theorem natDecChars_digits (n : Nat) : ∀ c ∈ natDecChars n, isDecDigit c = true := by
  induction n using Nat.strong_induction_on with
  | _ n ih =>
    unfold natDecChars
    split
    case isTrue h =>
      intro c hc
      simp at hc
      subst hc
      exact digitChar_isDec n h
    case isFalse h =>
      intro c hc
      rw [List.mem_append] at hc
      rcases hc with hc | hc
      · exact ih (n / 10) (Nat.div_lt_self (by omega) (by omega)) c hc
      · simp at hc
        subst hc
        exact digitChar_isDec _ (by omega)

/-- `decValue` of a list extended by one digit. -/
theorem decValue_append_one (l : List Char) (c : Char) :
    decValue (l ++ [c]) = decValue l * 10 + (c.toNat - 48) := by
  unfold decValue
  rw [List.foldl_append]
  rfl

/-- The numeric value of a digit character. -/
theorem digitChar_toNat (n : Nat) (h : n < 10) : (digitChar n).toNat - 48 = n := by
  interval_cases n <;> decide

/-- Rendering then reading a decimal numeral is the identity. -/
theorem decValue_natDecChars (n : Nat) : decValue (natDecChars n) = n := by
  induction n using Nat.strong_induction_on with
  | _ n ih =>
    unfold natDecChars
    split
    case isTrue h =>
      simp [decValue, digitChar_toNat n h]
    case isFalse h =>
      rw [decValue_append_one, ih (n / 10) (Nat.div_lt_self (by omega) (by omega)),
        digitChar_toNat _ (by omega)]
      omega

/-- A hex digit character is lowercase hex. -/
theorem hexChar_isHex (n : Nat) (h : n < 16) : isHexLower (hexChar n) = true := by
  interval_cases n <;> decide

/-- `hexDigits len n` has exactly `len` characters. -/
theorem hexDigits_length (len n : Nat) : (hexDigits len n).length = len := by
  induction len generalizing n with
  | zero => rfl
  | succ l ih => simp [hexDigits, ih]

/-- Every character of `hexDigits` is lowercase hex. -/
theorem hexDigits_hex (len n : Nat) : ∀ c ∈ hexDigits len n, isHexLower c = true := by
  induction len generalizing n with
  | zero =>
    intro c hc
    cases hc
  | succ l ih =>
    intro c hc
    unfold hexDigits at hc
    rw [List.mem_append] at hc
    rcases hc with hc | hc
    · exact ih _ c hc
    · simp at hc
      subst hc
      exact hexChar_isHex _ (by omega)

/-- Lowercase hex characters are never the dash separator. -/
theorem isHexLower_ne_dash {c : Char} (h : isHexLower c = true) : (c == '-') = false := by
  rcases hbc : (c == '-') with _ | _
  · rfl
  · have hc : c = '-' := by simpa using hbc
    subst hc
    exact absurd h (by decide)

/-- Decimal digits are never the slash separator. -/
theorem isDecDigit_ne_slash {c : Char} (h : isDecDigit c = true) : (c == '/') = false := by
  rcases hbc : (c == '/') with _ | _
  · rfl
  · have hc : c = '/' := by simpa using hbc
    subst hc
    exact absurd h (by decide)

/-- `splitDash` of a dash-free list is that one group. -/
theorem splitDash_no_dash (a : List Char) (ha : ∀ c ∈ a, (c == '-') = false) :
    splitDash a = [a] := by
  induction a with
  | nil => rfl
  | cons c t ih =>
    have hc := ha c (List.mem_cons_self _ _)
    rw [show splitDash (c :: t)
        = if c == '-' then [] :: splitDash t
          else match splitDash t with
            | [] => [[c]]
            | g :: gs => (c :: g) :: gs from rfl]
    rw [hc, ih (fun x hx => ha x (List.mem_cons_of_mem _ hx))]
    rfl

/-- `splitDash` peels one dash-free group off the front. -/
theorem splitDash_append (a b : List Char) (ha : ∀ c ∈ a, (c == '-') = false) :
    splitDash (a ++ '-' :: b) = a :: splitDash b := by
  induction a with
  | nil => simp [splitDash]
  | cons c t ih =>
    have hc := ha c (List.mem_cons_self _ _)
    rw [List.cons_append]
    rw [show splitDash (c :: (t ++ '-' :: b))
        = if c == '-' then [] :: splitDash (t ++ '-' :: b)
          else match splitDash (t ++ '-' :: b) with
            | [] => [[c]]
            | g :: gs => (c :: g) :: gs from rfl]
    rw [hc, ih (fun x hx => ha x (List.mem_cons_of_mem _ hx))]
    rfl

/-- The UUID v4 rendering passes the claim's literal shape check. -/
theorem checkUuidV4_uuidV4Chars (n : Nat) : checkUuidV4 (uuidV4Chars n) = true := by
  have hA := hexDigits_hex 8 (n / 16 ^ 24)
  have hB := hexDigits_hex 4 (n / 16 ^ 20)
  have hC := hexDigits_hex 3 (n / 16 ^ 17)
  have hD := hexDigits_hex 3 (n / 16 ^ 13)
  have hE := hexDigits_hex 12 n
  have hvc : isHexLower (hexChar (8 + n / 16 ^ 16 % 4)) = true :=
    hexChar_isHex _ (by omega)
  unfold uuidV4Chars checkUuidV4
  rw [splitDash_append _ _ (fun c hc => isHexLower_ne_dash (hA c hc))]
  rw [splitDash_append _ _ (fun c hc => isHexLower_ne_dash (hB c hc))]
  rw [show ('4' :: hexDigits 3 (n / 16 ^ 17) ++ '-' ::
      (hexChar (8 + n / 16 ^ 16 % 4) :: hexDigits 3 (n / 16 ^ 13) ++ '-' :: hexDigits 12 n))
      = ('4' :: hexDigits 3 (n / 16 ^ 17)) ++ '-' ::
      (hexChar (8 + n / 16 ^ 16 % 4) :: hexDigits 3 (n / 16 ^ 13) ++ '-' :: hexDigits 12 n)
      from by simp]
  rw [splitDash_append _ _ ?h4]
  case h4 =>
    intro c hc
    rcases List.mem_cons.mp hc with hc | hc
    · subst hc
      decide
    · exact isHexLower_ne_dash (hC c hc)
  rw [show (hexChar (8 + n / 16 ^ 16 % 4) :: hexDigits 3 (n / 16 ^ 13) ++ '-' :: hexDigits 12 n)
      = (hexChar (8 + n / 16 ^ 16 % 4) :: hexDigits 3 (n / 16 ^ 13)) ++ '-' :: hexDigits 12 n
      from by simp]
  rw [splitDash_append _ _ ?hv]
  case hv =>
    intro c hc
    rcases List.mem_cons.mp hc with hc | hc
    · subst hc
      exact isHexLower_ne_dash hvc
    · exact isHexLower_ne_dash (hD c hc)
  rw [splitDash_no_dash _ (fun c hc => isHexLower_ne_dash (hE c hc))]
  have hvshape : hexChar (8 + n / 16 ^ 16 % 4) = '8' ∨ hexChar (8 + n / 16 ^ 16 % 4) = '9'
      ∨ hexChar (8 + n / 16 ^ 16 % 4) = 'a' ∨ hexChar (8 + n / 16 ^ 16 % 4) = 'b' := by
    have h4 : n / 16 ^ 16 % 4 < 4 := by omega
    generalize hm : n / 16 ^ 16 % 4 = m at h4 ⊢
    interval_cases m <;> decide
  simp only [hexDigits_length]
  simp [List.all_eq_true, List.mem_append]
  exact ⟨⟨⟨hexDigits_length 3 _, hexDigits_length 3 _⟩, hA, hB, by decide, hC, hvc, hD, hE⟩,
    by tauto⟩

/-- `takeWhile`/`dropWhile` on a run of satisfying characters followed by a
stopping character. -/
theorem takeWhile_dropWhile_append_stop {α : Type} (p : α → Bool) (a : List α)
    (x : α) (b : List α) (ha : ∀ c ∈ a, p c = true) (hx : p x = false) :
    (a ++ x :: b).takeWhile p = a ∧ (a ++ x :: b).dropWhile p = x :: b := by
  induction a with
  | nil => simp [List.takeWhile_cons, List.dropWhile_cons, hx]
  | cons c t ih =>
    have hc := ha c (List.mem_cons_self _ _)
    have iht := ih (fun y hy => ha y (List.mem_cons_of_mem _ hy))
    simp [List.takeWhile_cons, List.dropWhile_cons, hc, iht.1, iht.2]

/-- The synthesized request id passes the claim's
`agent/{decimal ms}/{uuid v4}` literal shape check. -/
theorem checkRequestId_generated (ms seed : Nat) :
    checkRequestId (generate_request_id ms seed).data = true := by
  have hdata : (generate_request_id ms seed).data
      = 'a' :: 'g' :: 'e' :: 'n' :: 't' :: '/' :: (natDecChars ms ++ '/' :: uuidV4Chars seed) := by
    show ("agent/" ++ String.mk (natDecChars ms) ++ "/" ++ String.mk (uuidV4Chars seed)).data = _
    rw [String.data_append, String.data_append, String.data_append]
    simp
  rw [hdata]
  have hsplit := takeWhile_dropWhile_append_stop isDecDigit (natDecChars ms) '/'
    (uuidV4Chars seed) (natDecChars_digits ms) (by decide)
  have hred : checkRequestId
      ('a' :: 'g' :: 'e' :: 'n' :: 't' :: '/' :: (natDecChars ms ++ '/' :: uuidV4Chars seed))
      = (!(List.takeWhile isDecDigit (natDecChars ms ++ '/' :: uuidV4Chars seed)).isEmpty
         && match List.dropWhile isDecDigit (natDecChars ms ++ '/' :: uuidV4Chars seed) with
            | '/' :: uuid => checkUuidV4 uuid
            | _ => false) := rfl
  rw [hred, hsplit.1, hsplit.2]
  have hne : (natDecChars ms).isEmpty = false := by
    cases h : natDecChars ms with
    | nil => exact absurd h (natDecChars_ne_nil ms)
    | cons c t => rfl
  simp [hne, checkUuidV4_uuidV4Chars seed]

/-- The synthesized session id passes the claim's
`-{decimal in [0, 9e18)}` literal shape check. -/
theorem checkSessionId_generated (v : Nat) (hv : v < 9 * 10 ^ 18) :
    checkSessionId (generate_session_id v).data = true := by
  have hdata : (generate_session_id v).data = '-' :: natDecChars v := by
    show ("-" ++ String.mk (natDecChars v)).data = _
    rw [String.data_append]
    simp
  rw [hdata]
  unfold checkSessionId
  have hne : (natDecChars v).isEmpty = false := by
    cases h : natDecChars v with
    | nil => exact absurd h (natDecChars_ne_nil v)
    | cons c t => rfl
  simp [hne, List.all_eq_true, natDecChars_digits v, decValue_natDecChars, hv]
  exact ⟨natDecChars_digits v, by omega⟩

/-- C6: every Antigravity envelope fixes `userAgent = "antigravity"` and
`requestType = "agent"`; the generated request id has the literal shape
`agent/{decimal timestamp ms}/{uuid v4}`; and the generated session id is
`-` followed by a decimal numeral of a value in `[0, 9e18)` (`-0`
included, at `v = 0`). -/
theorem antigravity_envelope_shape (ms seed v : Nat)
    (meta : AntigravityRequestMeta) (req : GeminiGenerateContentRequest)
    (hv : v < 9 * 10 ^ 18) :
    (intoRequestBody meta req).userAgent = "antigravity"
    ∧ (intoRequestBody meta req).requestType = "agent"
    ∧ checkRequestId (generate_request_id ms seed).data = true
    ∧ generate_session_id v = "-" ++ String.mk (natDecChars v)
    ∧ checkSessionId (generate_session_id v).data = true :=
  ⟨rfl, rfl, checkRequestId_generated ms seed, rfl, checkSessionId_generated v hv⟩

/-- C6 witness: at timestamp 1234, UUID seed 0 and session value 0 (the
`-0` case) the envelope shapes hold. -/
theorem antigravity_envelope_shape_witness :
    (0 < 9 * 10 ^ 18)
    ∧ ((intoRequestBody { project := "project-1", request_id := "rid", model := "gemini-2.5-pro" }
        reqAllSigned).userAgent = "antigravity"
      ∧ (intoRequestBody { project := "project-1", request_id := "rid", model := "gemini-2.5-pro" }
          reqAllSigned).requestType = "agent"
      ∧ checkRequestId (generate_request_id 1234 0).data = true
      ∧ generate_session_id 0 = "-" ++ String.mk (natDecChars 0)
      ∧ checkSessionId (generate_session_id 0).data = true) :=
  ⟨by decide,
   antigravity_envelope_shape 1234 0 0
     { project := "project-1", request_id := "rid", model := "gemini-2.5-pro" }
     reqAllSigned (by decide)⟩

/-! ## C7 (confirmed): fingerprints ignore object key order -/

/-- Characters with equal code points are equal. -/
theorem char_eq_of_toNat_eq {a b : Char} (h : a.toNat = b.toNat) : a = b :=
  Char.ext (UInt32.ext h)

/-- `charListLe` is total. -/
theorem charListLe_total (a b : List Char) :
    charListLe a b = true ∨ charListLe b a = true := by
  induction a generalizing b with
  | nil =>
    left
    simp [charListLe]
  | cons x xs ih =>
    cases b with
    | nil =>
      right
      simp [charListLe]
    | cons y ys =>
      by_cases hxy : x.toNat < y.toNat
      · left
        simp [charListLe, hxy]
      · by_cases hyx : y.toNat < x.toNat
        · right
          simp [charListLe, hyx]
        · rcases ih ys with h | h
          · left
            simp [charListLe, hxy, hyx, h]
          · right
            simp [charListLe, hxy, hyx, h]

/-- `charListLe` is antisymmetric. -/
theorem charListLe_antisymm (a b : List Char)
    (h1 : charListLe a b = true) (h2 : charListLe b a = true) : a = b := by
  induction a generalizing b with
  | nil =>
    cases b with
    | nil => rfl
    | cons y ys => simp [charListLe] at h2
  | cons x xs ih =>
    cases b with
    | nil => simp [charListLe] at h1
    | cons y ys =>
      by_cases hxy : x.toNat < y.toNat
      · exfalso
        have hyx : ¬ y.toNat < x.toNat := by omega
        simp [charListLe, hxy, hyx] at h2
      · by_cases hyx : y.toNat < x.toNat
        · exfalso
          simp [charListLe, hxy, hyx] at h1
        · have hchar : x = y := char_eq_of_toNat_eq (by omega)
          have h1' : charListLe xs ys = true := by
            simpa [charListLe, hxy, hyx] using h1
          have h2' : charListLe ys xs = true := by
            simpa [charListLe, hxy, hyx] using h2
          rw [hchar, ih ys h1' h2']

/-- `charListLe` is transitive. -/
theorem charListLe_trans (a b c : List Char)
    (h1 : charListLe a b = true) (h2 : charListLe b c = true) :
    charListLe a c = true := by
  induction a generalizing b c with
  | nil => simp [charListLe]
  | cons x xs ih =>
    cases b with
    | nil => simp [charListLe] at h1
    | cons y ys =>
      cases c with
      | nil => simp [charListLe] at h2
      | cons z zs =>
        by_cases hxy : x.toNat < y.toNat <;> by_cases hyz : y.toNat < z.toNat
        · simp [charListLe, show x.toNat < z.toNat by omega]
        · by_cases hzy : z.toNat < y.toNat
          · exfalso
            simp [charListLe, hyz, hzy] at h2
          · simp [charListLe, show x.toNat < z.toNat by omega]
        · by_cases hyx : y.toNat < x.toNat
          · exfalso
            simp [charListLe, hxy, hyx] at h1
          · simp [charListLe, show x.toNat < z.toNat by omega]
        · by_cases hyx : y.toNat < x.toNat
          · exfalso
            simp [charListLe, hxy, hyx] at h1
          · by_cases hzy : z.toNat < y.toNat
            · exfalso
              simp [charListLe, hyz, hzy] at h2
            · have h1' : charListLe xs ys = true := by
                simpa [charListLe, hxy, hyx] using h1
              have h2' : charListLe ys zs = true := by
                simpa [charListLe, hyz, hzy] using h2
              simp [charListLe, show ¬ x.toNat < z.toNat by omega,
                show ¬ z.toNat < x.toNat by omega, ih ys zs h1' h2']

/-- `keyLe` is total. -/
theorem keyLe_total (a b : String × Json) : keyLe a b = true ∨ keyLe b a = true :=
  charListLe_total a.1.data b.1.data

/-- `keyLe` is transitive. -/
theorem keyLe_trans (a b c : String × Json)
    (h1 : keyLe a b = true) (h2 : keyLe b c = true) : keyLe a c = true :=
  charListLe_trans a.1.data b.1.data c.1.data h1 h2

/-- `keyLe` both ways forces equal keys. -/
theorem keyLe_antisymm_keys {a b : String × Json}
    (h1 : keyLe a b = true) (h2 : keyLe b a = true) : a.1 = b.1 := by
  have hdata := charListLe_antisymm a.1.data b.1.data h1 h2
  cases ha : a.1 with
  | mk la =>
    cases hb : b.1 with
    | mk lb =>
      rw [ha, hb] at hdata
      exact congrArg String.mk (by simpa using hdata)

/-- Ordered insertion permutes to consing. -/
theorem insertEntry_perm (e : String × Json) (l : List (String × Json)) :
    List.Perm (insertEntry e l) (e :: l) := by
  induction l with
  | nil => exact List.Perm.refl _
  | cons f fs ih =>
    by_cases hef : keyLe e f = true
    · simp [insertEntry, hef]
    · rw [show insertEntry e (f :: fs) = f :: insertEntry e fs from by
        simp [insertEntry, hef]]
      exact (ih.cons f).trans (List.Perm.swap e f fs)

/-- The key sort permutes its input. -/
theorem sortEntriesByKey_perm (l : List (String × Json)) :
    List.Perm (sortEntriesByKey l) l := by
  induction l with
  | nil => exact List.Perm.refl _
  | cons e t ih => exact (insertEntry_perm e (sortEntriesByKey t)).trans (ih.cons e)

/-- Ordered insertion preserves sortedness. -/
theorem pairwise_insertEntry (e : String × Json) (l : List (String × Json))
    (hl : l.Pairwise (fun a b => keyLe a b = true)) :
    (insertEntry e l).Pairwise (fun a b => keyLe a b = true) := by
  induction l with
  | nil => simp [insertEntry]
  | cons f fs ih =>
    rcases hl with _ | ⟨hf, hfs⟩
    by_cases hef : keyLe e f = true
    · rw [show insertEntry e (f :: fs) = e :: f :: fs from by simp [insertEntry, hef]]
      refine List.Pairwise.cons ?_ (List.Pairwise.cons hf hfs)
      intro b hb
      rcases List.mem_cons.mp hb with rfl | hb
      · exact hef
      · exact keyLe_trans e f b hef (hf b hb)
    · rw [show insertEntry e (f :: fs) = f :: insertEntry e fs from by
        simp [insertEntry, hef]]
      refine List.Pairwise.cons ?_ (ih hfs)
      intro b hb
      have hb' := (insertEntry_perm e fs).mem_iff.mp hb
      rcases List.mem_cons.mp hb' with rfl | hb'
      · exact (keyLe_total b f).resolve_left hef
      · exact hf b hb'

/-- The key sort sorts. -/
theorem pairwise_sortEntriesByKey (l : List (String × Json)) :
    (sortEntriesByKey l).Pairwise (fun a b => keyLe a b = true) := by
  induction l with
  | nil => simp [sortEntriesByKey]
  | cons e t ih => exact pairwise_insertEntry e (sortEntriesByKey t) ih

/-- Two key-sorted, duplicate-free-keyed permutations of each other are
equal. -/
theorem sorted_nodup_perm_eq {X Y : List (String × Json)}
    (hs1 : X.Pairwise (fun a b => keyLe a b = true))
    (hs2 : Y.Pairwise (fun a b => keyLe a b = true))
    (hn1 : (X.map Prod.fst).Nodup)
    (hperm : List.Perm X Y) : X = Y := by
  haveI : IsAntisymm (String × Json) (fun a b => keyLe a b = true ∧ a.1 ≠ b.1) := by
    constructor
    intro a b hab hba
    exact absurd (keyLe_antisymm_keys hab.1 hba.1) hab.2
  have hn2 : (Y.map Prod.fst).Nodup := (hperm.map Prod.fst).nodup_iff.mp hn1
  have hp1 : X.Pairwise (fun a b => a.1 ≠ b.1) := List.pairwise_map.mp hn1
  have hp2 : Y.Pairwise (fun a b => a.1 ≠ b.1) := List.pairwise_map.mp hn2
  exact List.eq_of_perm_of_sorted hperm (hs1.and hp1) (hs2.and hp2)

/-- `sortJsonList` is `sortAllObjects` mapped. -/
theorem sortJsonList_eq_map (xs : List Json) :
    sortJsonList xs = xs.map sortAllObjects := by
  induction xs with
  | nil => simp [sortJsonList]
  | cons x t ih => simp [sortJsonList, ih]

/-- `sortJsonEntries` is `sortAllObjects` mapped over values. -/
theorem sortJsonEntries_eq_map (es : List (String × Json)) :
    sortJsonEntries es = es.map (fun e => (e.1, sortAllObjects e.2)) := by
  induction es with
  | nil => simp [sortJsonEntries]
  | cons e t ih =>
    obtain ⟨k, v⟩ := e
    simp [sortJsonEntries, ih]

/-- Canonicalization is invariant under structural equality up to object key
order. -/
theorem structEq_sortAllObjects {a b : Json} (h : StructEq a b) :
    sortAllObjects a = sortAllObjects b := by
  induction h with
  | null => rfl
  | bool b => rfl
  | num n => rfl
  | str s => rfl
  | arr xs ys hlen hrec ih =>
    simp only [sortAllObjects]
    rw [sortJsonList_eq_map, sortJsonList_eq_map]
    congr 1
    apply List.ext_getElem (by simp [hlen])
    intro i h1 h2
    simp only [List.getElem_map]
    exact ih i (by simpa using h1) (by simpa using h2)
  | obj xs ys hnx hny hkeys hvals ih =>
    simp only [sortAllObjects]
    rw [sortJsonEntries_eq_map, sortJsonEntries_eq_map]
    have hXkeys : ((xs.map (fun e => (e.1, sortAllObjects e.2))).map Prod.fst)
        = xs.map Prod.fst := by
      simp
    have hYkeys : ((ys.map (fun e => (e.1, sortAllObjects e.2))).map Prod.fst)
        = ys.map Prod.fst := by
      simp
    have hnX : ((xs.map (fun e => (e.1, sortAllObjects e.2))).map Prod.fst).Nodup := by
      rw [hXkeys]
      exact hnx
    have hnY : ((ys.map (fun e => (e.1, sortAllObjects e.2))).map Prod.fst).Nodup := by
      rw [hYkeys]
      exact hny
    have hmem : ∀ p, p ∈ xs.map (fun e => (e.1, sortAllObjects e.2))
        ↔ p ∈ ys.map (fun e => (e.1, sortAllObjects e.2)) := by
      intro p
      constructor
      · intro hp
        rcases List.mem_map.mp hp with ⟨⟨k, v⟩, hkv, hpe⟩
        have hk : k ∈ ys.map Prod.fst := by
          rw [← hkeys k]
          exact List.mem_map.mpr ⟨(k, v), hkv, rfl⟩
        rcases List.mem_map.mp hk with ⟨⟨k2, w⟩, hkw, hke⟩
        have hke' : k2 = k := by simpa using hke
        subst hke'
        have hvw := ih k2 v w hkv hkw
        refine List.mem_map.mpr ⟨(k2, w), hkw, ?_⟩
        rw [← hpe]
        simp [hvw]
      · intro hp
        rcases List.mem_map.mp hp with ⟨⟨k, w⟩, hkw, hpe⟩
        have hk : k ∈ xs.map Prod.fst := by
          rw [hkeys k]
          exact List.mem_map.mpr ⟨(k, w), hkw, rfl⟩
        rcases List.mem_map.mp hk with ⟨⟨k2, v⟩, hkv, hke⟩
        have hke' : k2 = k := by simpa using hke
        subst hke'
        have hvw := ih k2 v w hkv hkw
        refine List.mem_map.mpr ⟨(k2, v), hkv, ?_⟩
        rw [← hpe]
        simp [hvw]
    have hXY : List.Perm (xs.map (fun e => (e.1, sortAllObjects e.2)))
        (ys.map (fun e => (e.1, sortAllObjects e.2))) :=
      (List.perm_ext_iff_of_nodup (hnX.of_map _) (hnY.of_map _)).mpr hmem
    congr 1
    apply sorted_nodup_perm_eq (pairwise_sortEntriesByKey _) (pairwise_sortEntriesByKey _)
    · have hpk := (sortEntriesByKey_perm (xs.map (fun e => (e.1, sortAllObjects e.2)))).map Prod.fst
      exact hpk.nodup_iff.mpr hnX
    · exact ((sortEntriesByKey_perm _).trans hXY).trans (sortEntriesByKey_perm _).symm

/-- C7: structurally equal values up to object key order — equal keys and
values at every nesting depth, arrays in the same element order — get the
same structured fingerprint from `generate_json`. -/
theorem generate_json_key_order_insensitive (a b : Json) (h : StructEq a b) :
    generate_json a = generate_json b := by
  unfold generate_json
  rw [structEq_sortAllObjects h]

/-- The inner `args` objects of the fixtures are structurally equal up to
key order. -/
theorem structEq_fnCallArgs :
    StructEq (.obj [("city", .str "Berlin"), ("unit", .str "c")])
      (.obj [("unit", .str "c"), ("city", .str "Berlin")]) := by
  apply StructEq.obj
  · simp
  · simp
  · intro k
    constructor <;> intro hk <;> simp at hk <;> rcases hk with h | h <;> simp [h]
  · intro k v w hv hw
    simp at hv hw
    rcases hv with ⟨hk1, hv⟩ | ⟨hk1, hv⟩ <;> rcases hw with ⟨hk2, hw⟩ | ⟨hk2, hw⟩ <;>
      subst hv <;> subst hw <;> first
      | (exact absurd (hk2.symm.trans hk1) (by decide))
      | exact StructEq.str _

/-- The two key-reordered function-call fixtures are structurally equal up
to key order. -/
theorem structEq_fnCall : StructEq fnCallA fnCallB := by
  unfold fnCallA fnCallB
  apply StructEq.obj
  · simp
  · simp
  · intro k
    constructor <;> intro hk <;> simp at hk <;> rcases hk with h | h <;> simp [h]
  · intro k v w hv hw
    simp at hv hw
    rcases hv with ⟨hk1, hv⟩ | ⟨hk1, hv⟩ <;> rcases hw with ⟨hk2, hw⟩ | ⟨hk2, hw⟩ <;>
      subst hv <;> subst hw <;> first
      | (exact absurd (hk2.symm.trans hk1) (by decide))
      | exact StructEq.str _
      | exact structEq_fnCallArgs

/-- C7 witness: the two key-reorderings of
`{"name":"get_weather","args":{"city":"Berlin","unit":"c"}}` are
structurally equal and get the same fingerprint. -/
theorem generate_json_key_order_insensitive_witness :
    StructEq fnCallA fnCallB ∧ generate_json fnCallA = generate_json fnCallB :=
  ⟨structEq_fnCall, generate_json_key_order_insensitive fnCallA fnCallB structEq_fnCall⟩
